import Mathlib

/-!
Shallow embedding of the transform pipeline of the Resize-and-watermarker
repository.  The authoritative implementation is
`src/services/imageProcessor.ts` (`processImage`), with batch aggregation in
`src/App.tsx` (`handleProcessAll`) and the data model in `src/types.ts`.

Numeric values flow through JavaScript doubles; the arithmetic performed by
the code (comparisons, `+ - * /`, `Math.max`, `Math.round`, `Math.floor`) is
modelled over `ℚ`.  Host-dependent quantities (the measured text width from
`ctx.measureText`, the length of the encoder's data URL, the random id) are
parameters of the model.
-/

namespace ResizeWatermarker

/-- Placement modes, from `WatermarkPosition` in `src/types.ts`. -/
inductive WatermarkPosition where
  | topLeft
  | topRight
  | bottomLeft
  | bottomRight
  | center
  | tiled
deriving DecidableEq, Repr

/-- Output encoding formats, from the union type of `ResizeSettings.format`
in `src/types.ts` (the strings are produced by `formatMime`). -/
inductive Format where
  | jpeg
  | png
  | webp
deriving DecidableEq, Repr

/-- The MIME string a `Format` value stands for in `src/types.ts`. -/
def formatMime : Format → String
  | .jpeg => "image/jpeg"
  | .png => "image/png"
  | .webp => "image/webp"

/-- `WatermarkSettings` from `src/types.ts`. -/
structure WatermarkSettings where
  text : String
  fontSize : ℚ
  color : String
  opacity : ℚ
  position : WatermarkPosition
  padding : ℚ
  rotation : ℚ
  tilingGap : ℚ
  contrast : ℚ
deriving DecidableEq, Repr

/-- `ResizeSettings` from `src/types.ts`. -/
structure ResizeSettings where
  maxWidth : ℚ
  quality : ℚ
  format : Format
deriving DecidableEq, Repr

/-- `ProcessedImage` from `src/types.ts` (the `previewUrl` and
`processedUrl` fields are host object URLs / encoder output and are not
modelled). -/
structure ProcessedImage where
  id : String
  originalName : String
  width : ℤ
  height : ℤ
  size : ℤ
deriving DecidableEq, Repr

/-- JavaScript `Math.round`: rounds half away from zero toward positive
infinity, i.e. `Math.round(q) = ⌊q + 1/2⌋`. -/
def jsRound (q : ℚ) : ℤ := ⌊q + 1 / 2⌋

/-- Resize width, `src/services/imageProcessor.ts` lines 19-26:
`targetWidth` stays at `img.width` unless `img.width > resize.maxWidth`,
in which case it is clamped to `resize.maxWidth`. -/
def targetWidth (imgW maxW : ℚ) : ℚ :=
  if imgW > maxW then maxW else imgW

/-- Resize height, `src/services/imageProcessor.ts` lines 19-26: when the
width is clamped, `targetHeight = img.height * (resize.maxWidth / img.width)`,
otherwise it stays at `img.height`. -/
def targetHeight (imgW imgH maxW : ℚ) : ℚ :=
  if imgW > maxW then imgH * (maxW / imgW) else imgH

/-- `scaleFactor = targetWidth / 1000`, line 39 of imageProcessor.ts. -/
def scaleFactor (tW : ℚ) : ℚ := tW / 1000

/-- `actualFontSize = Math.max(watermark.fontSize * scaleFactor, 12)`,
line 40 of imageProcessor.ts. -/
def actualFontSize (fontSize tW : ℚ) : ℚ :=
  max (fontSize * scaleFactor tW) 12

/-- `padding = watermark.padding * scaleFactor`, line 64 of
imageProcessor.ts. -/
def effectivePadding (padding tW : ℚ) : ℚ := padding * scaleFactor tW

/-- Anchor of the single watermark instance in the non-tiled modes, the
`switch` at lines 82-107 of imageProcessor.ts.  `x` and `y` are initialised
to `0`, so the `tiled` arm (never reached: tiling is handled by the
enclosing `if`) yields `(0, 0)`. -/
def singleAnchor (pos : WatermarkPosition) (tW tH pad textW textH : ℚ) :
    ℚ × ℚ :=
  match pos with
  | .topLeft => (pad + textW / 2, pad + textH / 2)
  | .topRight => (tW - pad - textW / 2, pad + textH / 2)
  | .bottomLeft => (pad + textW / 2, tH - pad - textH / 2)
  | .bottomRight => (tW - pad - textW / 2, tH - pad - textH / 2)
  | .center => (tW / 2, tH / 2)
  | .tiled => (0, 0)

/-- `gapX = textWidth * (watermark.tilingGap / 100)`, line 70. -/
def gapX (textW tilingGap : ℚ) : ℚ := textW * (tilingGap / 100)

/-- `gapY = textHeight * (watermark.tilingGap / 100)`, line 71. -/
def gapY (textH tilingGap : ℚ) : ℚ := textH * (tilingGap / 100)

/-- `stepX = textWidth + gapX`, line 72. -/
def stepX (textW tilingGap : ℚ) : ℚ := textW + gapX textW tilingGap

/-- `stepY = textHeight + gapY`, line 73. -/
def stepY (textH tilingGap : ℚ) : ℚ := textH + gapY textH tilingGap

/-- Value of the loop variable after `n` increments in
`for (let x = x0; x < bound; x += step)` (the loop body does not otherwise
modify `x`). -/
def loopIter (x0 step : ℚ) (n : ℕ) : ℚ := x0 + n * step

/-- The body of `for (let x = x0; x < bound; x += step)` executes on
iteration `n` exactly when the guard held on every iteration up to and
including `n` (the loop stops at the first failing guard). -/
def loopRuns (x0 step bound : ℚ) (n : ℕ) : Prop :=
  ∀ k, k ≤ n → loopIter x0 step k < bound

instance (x0 step bound : ℚ) (n : ℕ) :
    Decidable (loopRuns x0 step bound n) :=
  Nat.decidableBallLE n fun k _ => loopIter x0 step k < bound

/-- The loop `for (let x = x0; x < bound; x += step)` terminates exactly
when some iterate fails the guard. -/
def loopTerminates (x0 step bound : ℚ) : Prop :=
  ∃ n, ¬ loopIter x0 step n < bound

/-- Number of iterations the loop performs when `step > 0`; characterised
against `loopRuns` in `lt_tileCount_iff`. -/
def tileCount (x0 step bound : ℚ) : ℕ := (⌈(bound - x0) / step⌉).toNat

/-- Anchors painted by the tiled-mode double loop, lines 76-80 of
imageProcessor.ts: `x` starts at `-textWidth` and steps by `stepX` while
`x < targetWidth + textWidth`; `y` starts at `-textHeight` and steps by
`stepY` while `y < targetHeight + textHeight`. -/
def tiledPainted (W H textW textH tilingGap : ℚ) (p : ℚ × ℚ) : Prop :=
  ∃ i j : ℕ,
    loopRuns (-textW) (stepX textW tilingGap) (W + textW) i ∧
    loopRuns (-textH) (stepY textH tilingGap) (H + textH) j ∧
    p.1 = loopIter (-textW) (stepX textW tilingGap) i ∧
    p.2 = loopIter (-textH) (stepY textH tilingGap) j

/-- Modelled from the spec (section 4.2, tiled mode): the grid starting at
`x0 = -textW`, `y0 = -textH`, stepping by `stepX = textW + textW*(g/100)`
and `stepY = textH + textH*(g/100)`, containing every point with
`x < W + textW` and `y < H + textH` reached by those steps. -/
def specTileGrid (W H textW textH tilingGap : ℚ) (p : ℚ × ℚ) : Prop :=
  ∃ i j : ℕ,
    p.1 = -textW + i * (textW + textW * (tilingGap / 100)) ∧
    p.1 < W + textW ∧
    p.2 = -textH + j * (textH + textH * (tilingGap / 100)) ∧
    p.2 < H + textH

/-- Length of the stripped data-URL header, line 113 of imageProcessor.ts:
the length of the template string built from the format's MIME string. -/
def dataUrlHead (format : Format) : ℕ :=
  ("data:" ++ formatMime format ++ ";base64,").length

/-- Reported byte size, line 114 of imageProcessor.ts:
`Math.round((processedUrl.length - head) * 3 / 4)`.  `urlLen` is the length
of the data URL returned by the host encoder. -/
def sizeEstimate (format : Format) (urlLen : ℕ) : ℤ :=
  jsRound (((urlLen : ℚ) - (dataUrlHead format : ℚ)) * 3 / 4)

/-- Result record assembled at lines 116-124 of imageProcessor.ts.  The
fresh id (from `Math.random`) and the encoder's data-URL length are
parameters. -/
def processResult (imgW imgH : ℚ) (rz : ResizeSettings)
    (freshId name : String) (urlLen : ℕ) : ProcessedImage :=
  { id := freshId
    originalName := name
    width := jsRound (targetWidth imgW rz.maxWidth)
    height := jsRound (targetHeight imgW imgH rz.maxWidth)
    size := sizeEstimate rz.format urlLen }

/-! Canvas drawing-state model for `drawWatermarkAt`, lines 49-62 of
imageProcessor.ts.  The 2D context keeps a current drawing state and a
save/restore stack; `fillText` records a paint operation carrying the state
it was issued under.  The transform is kept as the list of transform
operations applied since the surface was created (the host composes them
into a matrix; list equality is finer than matrix equality, so state
restoration proved here implies restoration of the host matrix). -/

/-- One transform mutation of the 2D context.  The source calls
`ctx.rotate(watermark.rotation * Math.PI / 180)`; the op is recorded by its
degree parameter, the host multiplies by the fixed constant `π / 180`. -/
inductive TransformOp where
  | translate (x y : ℚ)
  | rotateDeg (deg : ℚ)
deriving DecidableEq, Repr

/-- The mutable drawing state of the 2D context (the fields
`drawWatermarkAt` touches, plus the fill/alpha fields set before it). -/
structure DrawState where
  transform : List TransformOp
  filter : Option ℚ
  globalAlpha : ℚ
  fillStyle : String
deriving DecidableEq, Repr

/-- A recorded `fillText` call: text, position arguments, and the drawing
state in force when it was issued. -/
structure PaintOp where
  text : String
  x : ℚ
  y : ℚ
  state : DrawState
deriving DecidableEq, Repr

/-- The 2D context: current state, save stack, and the paint operations
issued so far (append-only). -/
structure Ctx where
  state : DrawState
  stack : List DrawState
  ops : List PaintOp
deriving DecidableEq, Repr

/-- `ctx.save()`: push the current state on the stack. -/
def ctxSave (c : Ctx) : Ctx := { c with stack := c.state :: c.stack }

/-- `ctx.restore()`: pop the stack into the current state (no-op on an
empty stack, as in the canvas API). -/
def ctxRestore (c : Ctx) : Ctx :=
  match c.stack with
  | [] => c
  | s :: rest => { c with state := s, stack := rest }

/-- `ctx.translate(x, y)`. -/
def ctxTranslate (x y : ℚ) (c : Ctx) : Ctx :=
  { c with state :=
      { c.state with transform :=
          c.state.transform ++ [TransformOp.translate x y] } }

/-- `ctx.rotate(deg * π / 180)`, recorded by its degree parameter. -/
def ctxRotate (deg : ℚ) (c : Ctx) : Ctx :=
  { c with state :=
      { c.state with transform :=
          c.state.transform ++ [TransformOp.rotateDeg deg] } }

/-- Assignment of the contrast filter,
`ctx.filter = contrast(1 + contrast/100)`. -/
def ctxSetFilter (v : ℚ) (c : Ctx) : Ctx :=
  { c with state := { c.state with filter := some v } }

/-- `ctx.fillText(text, x, y)`: record the paint op under the current
state. -/
def ctxFillText (text : String) (x y : ℚ) (c : Ctx) : Ctx :=
  { c with ops := c.ops ++ [{ text := text, x := x, y := y,
                              state := c.state }] }

/-- `drawWatermarkAt`, lines 49-62 of imageProcessor.ts: save, translate to
the anchor, rotate, set the contrast filter when `contrast ≠ 0`, fill the
text centered horizontally (`-textWidth / 2`, baseline `0`), restore. -/
def drawWatermarkAt (wm : WatermarkSettings) (textW : ℚ) (x y : ℚ)
    (c : Ctx) : Ctx :=
  let c1 := ctxSave c
  let c2 := ctxTranslate x y c1
  let c3 := ctxRotate wm.rotation c2
  let c4 := if wm.contrast ≠ 0
    then ctxSetFilter (1 + wm.contrast / 100) c3 else c3
  let c5 := ctxFillText wm.text (-(textW / 2)) 0 c4
  ctxRestore c5

/-- Painting a list of anchors in order, as the tiling loop and the
single-anchor branch both do via repeated `drawWatermarkAt` calls. -/
def paintAnchors (wm : WatermarkSettings) (textW : ℚ)
    (anchors : List (ℚ × ℚ)) (c : Ctx) : Ctx :=
  anchors.foldl (fun acc p => drawWatermarkAt wm textW p.1 p.2 acc) c

/-- The drawing state one watermark instance is painted under, derived
from the base state `s` and the instance's own anchor only: translate to
the anchor, rotate, contrast filter when `contrast ≠ 0`. -/
def instanceState (wm : WatermarkSettings) (x y : ℚ) (s : DrawState) :
    DrawState :=
  let s1 := { s with transform :=
      s.transform ++ [TransformOp.translate x y, TransformOp.rotateDeg wm.rotation] }
  if wm.contrast ≠ 0 then { s1 with filter := some (1 + wm.contrast / 100) }
  else s1

/-- The paint op one `drawWatermarkAt x y` call appends when the context's
state is `s`. -/
def instanceOp (wm : WatermarkSettings) (textW : ℚ) (x y : ℚ)
    (s : DrawState) : PaintOp :=
  { text := wm.text, x := -(textW / 2), y := 0,
    state := instanceState wm x y s }

/-! Promise model for the batch, `handleProcessAll` in `src/App.tsx`
lines 40-54.  A JavaScript promise is either resolved, rejected, or
forever pending; `Promise.all` rejects as soon as any input rejects,
resolves when all inputs resolve, and otherwise stays pending. -/

/-- Eventual outcome of a JavaScript promise. -/
inductive PromiseOutcome (α : Type) where
  | resolved (a : α)
  | rejected (e : String)
  | pending
deriving DecidableEq, Repr

/-- `Promise.all`: rejected when some input is rejected, resolved with the
list of values when all inputs resolve, pending otherwise. -/
def promiseAll {α : Type} : List (PromiseOutcome α) → PromiseOutcome (List α)
  | [] => .resolved []
  | p :: ps =>
    match p, promiseAll ps with
    | .rejected e, _ => .rejected e
    | _, .rejected e => .rejected e
    | .resolved a, .resolved as => .resolved (a :: as)
    | _, _ => .pending

/-- A source file handed to `processImage`: its name, whether the
`FileReader` read succeeds, whether the host can decode the bytes as an
image (whether `img.onload` ever fires), and the decoded pixel
dimensions. -/
structure SourceImage where
  name : String
  readerOk : Bool
  decodable : Bool
  width : ℚ
  height : ℚ
deriving DecidableEq, Repr

/-- Outcome of the promise returned by `processImage`
(src/services/imageProcessor.ts lines 8-130): `reader.onerror` rejects;
when the bytes cannot be decoded, `img.onload` never fires and no handler
is attached to the image element's error event, so the promise never
settles; otherwise it resolves with the assembled result. -/
def processImageOutcome (f : SourceImage) (rz : ResizeSettings)
    (freshId : String) (urlLen : ℕ) : PromiseOutcome ProcessedImage :=
  if !f.readerOk then .rejected "reader error"
  else if !f.decodable then .pending
  else .resolved (processResult f.width f.height rz freshId f.name urlLen)

/-- `handleProcessAll`, src/App.tsx lines 40-54: the batch result is
`Promise.all` over `files.map(f => processImage(f.file, watermark,
resize))`.  `freshId` and `urlLen` supply each invocation's random id and
encoder output length. -/
def handleProcessAllOutcome (batch : List SourceImage) (rz : ResizeSettings)
    (freshId : SourceImage → String) (urlLen : SourceImage → ℕ) :
    PromiseOutcome (List ProcessedImage) :=
  promiseAll (batch.map fun f => processImageOutcome f rz (freshId f) (urlLen f))

/-! Helper lemmas shared by the claim theorems. -/

lemma jsRound_intCast (n : ℤ) : jsRound (n : ℚ) = n := by
  unfold jsRound
  rw [Int.floor_eq_iff]
  constructor
  · linarith
  · linarith

lemma abs_jsRound_sub_le (q : ℚ) : |((jsRound q : ℤ) : ℚ) - q| ≤ 1 / 2 := by
  have h1 : ((jsRound q : ℤ) : ℚ) ≤ q + 1 / 2 := Int.floor_le _
  have h2 : q + 1 / 2 - 1 < ((jsRound q : ℤ) : ℚ) := Int.sub_one_lt_floor _
  rw [abs_le]
  constructor <;> linarith

lemma jsRound_lt_jsRound {a b : ℚ} (hab : a + 1 ≤ b) : jsRound a < jsRound b := by
  unfold jsRound
  have h1 : ⌊a + 1 / 2 + 1⌋ ≤ ⌊b + 1 / 2⌋ :=
    Int.floor_le_floor (by linarith)
  rw [Int.floor_add_one] at h1
  omega

lemma loopRuns_iff_of_nonneg (x0 step bound : ℚ) (h : 0 ≤ step) (n : ℕ) :
    loopRuns x0 step bound n ↔ loopIter x0 step n < bound := by
  constructor
  · intro hr
    exact hr n le_rfl
  · intro hlt k hk
    have hmul : (k : ℚ) * step ≤ (n : ℚ) * step :=
      mul_le_mul_of_nonneg_right (by exact_mod_cast hk) h
    unfold loopIter at hlt ⊢
    linarith

lemma lt_tileCount_iff (x0 step bound : ℚ) (h : 0 < step) (n : ℕ) :
    n < tileCount x0 step bound ↔ loopIter x0 step n < bound := by
  unfold tileCount loopIter
  rw [Int.lt_toNat, Int.lt_ceil, lt_div_iff₀ h]
  push_cast
  constructor <;> intro <;> linarith

lemma nat_eq_of_lt_iff {a b : ℕ} (h : ∀ n, n < a ↔ n < b) : a = b := by
  rcases lt_trichotomy a b with h1 | h1 | h1
  · exact absurd ((h a).mpr h1) (lt_irrefl a)
  · exact h1
  · exact absurd ((h b).mp h1) (lt_irrefl b)

lemma tileCount_double (x0 bound s : ℚ) (hs : 0 < s) :
    tileCount x0 (2 * s) bound = (tileCount x0 s bound + 1) / 2 := by
  apply nat_eq_of_lt_iff
  intro n
  rw [lt_tileCount_iff x0 (2 * s) bound (by linarith) n]
  have h2 : loopIter x0 (2 * s) n = loopIter x0 s (2 * n) := by
    unfold loopIter
    push_cast
    ring
  rw [h2, ← lt_tileCount_iff x0 s bound hs (2 * n)]
  omega

/-- C1.  Resize geometry (imageProcessor.ts lines 19-26, 121-122): with a
positive `maxWidth`, an image no wider than `maxWidth` keeps both
dimensions unchanged; a wider image gets float target width exactly
`maxWidth` and float target height `originalHeight * (maxWidth /
originalWidth)`, and the result's `width`/`height` fields are the
`Math.round` of those float targets, the rounded height lying within 1/2
of the exact aspect-preserving height. -/
theorem resize_dimensions (origW origH maxW : ℤ)
    (_hW : 0 < origW) (_hM : 0 < maxW) :
    (origW ≤ maxW →
      targetWidth (origW : ℚ) (maxW : ℚ) = (origW : ℚ) ∧
      targetHeight (origW : ℚ) (origH : ℚ) (maxW : ℚ) = (origH : ℚ) ∧
      jsRound (targetWidth (origW : ℚ) (maxW : ℚ)) = origW ∧
      jsRound (targetHeight (origW : ℚ) (origH : ℚ) (maxW : ℚ)) = origH) ∧
    (maxW < origW →
      targetWidth (origW : ℚ) (maxW : ℚ) = (maxW : ℚ) ∧
      targetHeight (origW : ℚ) (origH : ℚ) (maxW : ℚ) =
        (origH : ℚ) * ((maxW : ℚ) / (origW : ℚ)) ∧
      jsRound (targetWidth (origW : ℚ) (maxW : ℚ)) = maxW ∧
      |((jsRound (targetHeight (origW : ℚ) (origH : ℚ) (maxW : ℚ)) : ℤ) : ℚ) -
          (origH : ℚ) * ((maxW : ℚ) / (origW : ℚ))| ≤ 1 / 2) := by
  constructor
  · intro h
    have hc : ¬ ((origW : ℚ) > (maxW : ℚ)) := by
      rw [not_lt]
      exact_mod_cast h
    unfold targetWidth targetHeight
    rw [if_neg hc, if_neg hc]
    exact ⟨rfl, rfl, jsRound_intCast _, jsRound_intCast _⟩
  · intro h
    have hc : (origW : ℚ) > (maxW : ℚ) := by exact_mod_cast h
    unfold targetWidth targetHeight
    rw [if_pos hc, if_pos hc]
    exact ⟨rfl, rfl, jsRound_intCast _, abs_jsRound_sub_le _⟩

/-- Witness for C1 at the spec's concrete scenario: a 2000 by 1000 image
with `maxWidth = 1000` resizes to 1000 by 500. -/
theorem resize_dimensions_witness :
    jsRound (targetWidth ((2000 : ℤ) : ℚ) ((1000 : ℤ) : ℚ)) = 1000 ∧
    jsRound (targetHeight ((2000 : ℤ) : ℚ) ((1000 : ℤ) : ℚ)
      ((1000 : ℤ) : ℚ)) = 500 := by
  have h := (resize_dimensions 2000 1000 1000 (by decide) (by decide)).2
    (by decide)
  refine ⟨h.2.2.1, ?_⟩
  rw [h.2.1]
  have hv : ((1000 : ℤ) : ℚ) * (((1000 : ℤ) : ℚ) / ((2000 : ℤ) : ℚ)) =
      ((500 : ℤ) : ℚ) := by norm_num
  rw [hv, jsRound_intCast]

/-- C3.  The tiled loop of imageProcessor.ts lines 76-80 has no guard
against a non-positive step.  An empty `text` measures width 0 on the
canvas (spec section 4.2: empty text measures as 0), which gives
`stepX = 0 + 0 * (tilingGap / 100) = 0`, and for any surface of positive
width the x-loop guard `x < targetWidth + textWidth` holds at every
iteration, so the loop never terminates: the code hangs instead of
treating the degenerate step as a configuration error. -/
theorem tiled_empty_text_loop_diverges (g W : ℚ) (hW : 0 < W) :
    stepX 0 g = 0 ∧
    ¬ loopTerminates (-(0 : ℚ)) (stepX 0 g) (W + 0) := by
  have hs : stepX 0 g = 0 := by
    unfold stepX gapX
    ring
  refine ⟨hs, ?_⟩
  rintro ⟨n, hn⟩
  apply hn
  rw [hs]
  unfold loopIter
  simpa using hW

/-- Witness for C3: a tiled watermark with empty text (measured width 0),
`tilingGap = 50`, on a 1000-wide surface never exits the x-loop. -/
theorem tiled_empty_text_loop_diverges_witness :
    (0 : ℚ) < 1000 ∧
    ¬ loopTerminates (-(0 : ℚ)) (stepX 0 50) ((1000 : ℚ) + 0) :=
  ⟨by norm_num, (tiled_empty_text_loop_diverges 50 1000 (by norm_num)).2⟩

/-- C4.  For tiled mode with nonnegative measured text dimensions and
nonnegative `tilingGapPercent`, the set of anchors the double loop paints
(imageProcessor.ts lines 76-80) is exactly the grid the spec describes:
start at `(-textW, -textH)`, step by `textW + textW*(g/100)` and
`textH + textH*(g/100)`, keep every point with `x < W + textW` and
`y < H + textH`. -/
theorem tiled_anchors_are_spec_grid (W H textW textH g : ℚ)
    (hw : 0 ≤ textW) (hh : 0 ≤ textH) (hg : 0 ≤ g) (p : ℚ × ℚ) :
    tiledPainted W H textW textH g p ↔ specTileGrid W H textW textH g p := by
  have hg100 : 0 ≤ g / 100 := by positivity
  have hsx : 0 ≤ stepX textW g := by
    unfold stepX gapX
    have := mul_nonneg hw hg100
    linarith
  have hsy : 0 ≤ stepY textH g := by
    unfold stepY gapY
    have := mul_nonneg hh hg100
    linarith
  have hx_eq : ∀ i : ℕ, loopIter (-textW) (stepX textW g) i =
      -textW + i * (textW + textW * (g / 100)) := by
    intro i
    unfold loopIter stepX gapX
    ring
  have hy_eq : ∀ j : ℕ, loopIter (-textH) (stepY textH g) j =
      -textH + j * (textH + textH * (g / 100)) := by
    intro j
    unfold loopIter stepY gapY
    ring
  unfold tiledPainted specTileGrid
  constructor
  · rintro ⟨i, j, hi, hj, hx, hy⟩
    refine ⟨i, j, ?_, ?_, ?_, ?_⟩
    · rw [hx, hx_eq]
    · rw [hx]
      exact (loopRuns_iff_of_nonneg _ _ _ hsx i).mp hi
    · rw [hy, hy_eq]
    · rw [hy]
      exact (loopRuns_iff_of_nonneg _ _ _ hsy j).mp hj
  · rintro ⟨i, j, hx1, hx2, hy1, hy2⟩
    refine ⟨i, j, ?_, ?_, ?_, ?_⟩
    · apply (loopRuns_iff_of_nonneg _ _ _ hsx i).mpr
      rw [hx_eq, ← hx1]
      exact hx2
    · apply (loopRuns_iff_of_nonneg _ _ _ hsy j).mpr
      rw [hy_eq, ← hy1]
      exact hy2
    · rw [hx1, hx_eq]
    · rw [hy1, hy_eq]

/-- Witness for C4 at `textW = textH = 10`, `g = 0`, on a 25 by 25
surface: the point `(0, 0)` (the second anchor of each axis) is painted
and lies on the spec grid. -/
theorem tiled_anchors_are_spec_grid_witness :
    (0 : ℚ) ≤ 10 ∧
    tiledPainted 25 25 10 10 0 ((0 : ℚ), (0 : ℚ)) := by
  refine ⟨by norm_num, ?_⟩
  apply (tiled_anchors_are_spec_grid 25 25 10 10 0 (by norm_num) (by norm_num)
    (by norm_num) ((0 : ℚ), (0 : ℚ))).mpr
  refine ⟨1, 1, ?_, ?_, ?_, ?_⟩ <;> norm_num

/-- C5.  Non-tiled placement (imageProcessor.ts lines 82-107) matches the
spec's anchor table in every mode: top-left at
`(padding + textW/2, padding + textH/2)`, top-right at
`(W - padding - textW/2, padding + textH/2)`, bottom-left at
`(padding + textW/2, H - padding - textH/2)`, bottom-right at
`(W - padding - textW/2, H - padding - textH/2)`; center anchors at
exactly `(W/2, H/2)` for every padding value; and in the spec's concrete
scenario (2000 by 1000 image, `maxWidth = 1000`, `padding = 30`,
`fontSizeBase = 32`) the scale factor is 1, the effective font size is 32,
and the bottom-right anchor is `(1000 - 30 - textW/2, 500 - 30 - 16)`. -/
theorem single_anchor_placement :
    (∀ W H pad textW textH : ℚ,
      singleAnchor .topLeft W H pad textW textH =
        (pad + textW / 2, pad + textH / 2)) ∧
    (∀ W H pad textW textH : ℚ,
      singleAnchor .topRight W H pad textW textH =
        (W - pad - textW / 2, pad + textH / 2)) ∧
    (∀ W H pad textW textH : ℚ,
      singleAnchor .bottomLeft W H pad textW textH =
        (pad + textW / 2, H - pad - textH / 2)) ∧
    (∀ W H pad textW textH : ℚ,
      singleAnchor .bottomRight W H pad textW textH =
        (W - pad - textW / 2, H - pad - textH / 2)) ∧
    (∀ W H pad pad2 textW textH : ℚ,
      singleAnchor .center W H pad textW textH = (W / 2, H / 2) ∧
      singleAnchor .center W H pad textW textH =
        singleAnchor .center W H pad2 textW textH) ∧
    (∀ textW : ℚ,
      targetWidth 2000 1000 = 1000 ∧
      targetHeight 2000 1000 1000 = 500 ∧
      scaleFactor (targetWidth 2000 1000) = 1 ∧
      actualFontSize 32 (targetWidth 2000 1000) = 32 ∧
      effectivePadding 30 (targetWidth 2000 1000) = 30 ∧
      singleAnchor .bottomRight (targetWidth 2000 1000)
          (targetHeight 2000 1000 1000)
          (effectivePadding 30 (targetWidth 2000 1000)) textW
          (actualFontSize 32 (targetWidth 2000 1000)) =
        (1000 - 30 - textW / 2, 500 - 30 - 16)) := by
  have htw : targetWidth (2000 : ℚ) 1000 = 1000 := by
    unfold targetWidth
    norm_num
  have hth : targetHeight (2000 : ℚ) 1000 1000 = 500 := by
    unfold targetHeight
    norm_num
  have hsf : scaleFactor (targetWidth 2000 1000) = 1 := by
    rw [htw]
    unfold scaleFactor
    norm_num
  have hfs : actualFontSize 32 (targetWidth 2000 1000) = 32 := by
    unfold actualFontSize
    rw [hsf]
    norm_num
  have hpad : effectivePadding 30 (targetWidth 2000 1000) = 30 := by
    unfold effectivePadding
    rw [hsf]
    norm_num
  refine ⟨fun W H pad textW textH => rfl,
    fun W H pad textW textH => rfl,
    fun W H pad textW textH => rfl,
    fun W H pad textW textH => rfl,
    fun W H pad pad2 textW textH => ⟨rfl, rfl⟩,
    fun textW => ⟨htw, hth, hsf, hfs, hpad, ?_⟩⟩
  rw [hfs, hpad, htw, hth]
  unfold singleAnchor
  norm_num

/-- C6.  Watermark scale parameters (imageProcessor.ts lines 39-40, 64):
`scaleFactor = targetWidth / 1000`, `effectiveFontSize =
max(fontSizeBase * scaleFactor, 12)` with the hard floor of 12 holding
for every scale, and `effectivePadding = padding * scaleFactor`. -/
theorem scale_parameters (tW fontSizeBase pad : ℚ) :
    scaleFactor tW = tW / 1000 ∧
    actualFontSize fontSizeBase tW = max (fontSizeBase * (tW / 1000)) 12 ∧
    12 ≤ actualFontSize fontSizeBase tW ∧
    effectivePadding pad tW = pad * (tW / 1000) := by
  refine ⟨rfl, rfl, ?_, rfl⟩
  unfold actualFontSize
  exact le_max_right _ _

/-- C7.  Reported size (imageProcessor.ts lines 113-114): the header
`data:<mime>;base64,` (23 characters for jpeg and webp, 22 for png) is
subtracted from the data-URL length before applying the 3/4
base64-to-binary ratio, and the result is strictly smaller than the
unstripped estimate `round(length * 3/4)` for every payload length. -/
theorem size_estimate_strips_header (urlLen : ℕ) :
    dataUrlHead .jpeg = 23 ∧ dataUrlHead .png = 22 ∧ dataUrlHead .webp = 23 ∧
    (∀ f : Format, sizeEstimate f urlLen =
      jsRound (((urlLen : ℚ) - (dataUrlHead f : ℚ)) * 3 / 4)) ∧
    (∀ f : Format, sizeEstimate f urlLen < jsRound ((urlLen : ℚ) * 3 / 4)) := by
  refine ⟨rfl, rfl, rfl, fun f => rfl, fun f => ?_⟩
  unfold sizeEstimate
  apply jsRound_lt_jsRound
  have hf : (22 : ℚ) ≤ (dataUrlHead f : ℚ) := by
    have hv : 22 ≤ dataUrlHead f := by cases f <;> decide
    exact_mod_cast hv
  have h4 : ((urlLen : ℚ) - (dataUrlHead f : ℚ)) * 3 / 4 =
      (urlLen : ℚ) * 3 / 4 - (dataUrlHead f : ℚ) * 3 / 4 := by
    ring
  rw [h4]
  linarith

/-- C8 (amended).  With `tilingGap = 0` the steps equal the text
dimensions, so consecutive x anchors are spaced exactly `textW` apart;
`tilingGap = 100` doubles both steps; and doubling the step turns the
tile count along an axis into the ceiling of half the zero-gap count
(exact halving only when that count is even).  The sixth conjunct ties
`tileCount` to the loop semantics: the body runs on iteration `n` exactly
when `n < tileCount`. -/
theorem tiling_gap_scaling (textW textH W H : ℚ)
    (hw : 0 < textW) (hh : 0 < textH) :
    stepX textW 0 = textW ∧
    stepY textH 0 = textH ∧
    (∀ x0 : ℚ, ∀ n : ℕ,
      loopIter x0 (stepX textW 0) (n + 1) -
        loopIter x0 (stepX textW 0) n = textW) ∧
    stepX textW 100 = 2 * stepX textW 0 ∧
    stepY textH 100 = 2 * stepY textH 0 ∧
    (∀ n, loopRuns (-textW) (stepX textW 0) (W + textW) n ↔
      n < tileCount (-textW) (stepX textW 0) (W + textW)) ∧
    tileCount (-textW) (stepX textW 100) (W + textW) =
      (tileCount (-textW) (stepX textW 0) (W + textW) + 1) / 2 ∧
    tileCount (-textH) (stepY textH 100) (H + textH) =
      (tileCount (-textH) (stepY textH 0) (H + textH) + 1) / 2 := by
  have hx0 : stepX textW 0 = textW := by
    unfold stepX gapX
    ring
  have hy0 : stepY textH 0 = textH := by
    unfold stepY gapY
    ring
  have hx100 : stepX textW 100 = 2 * textW := by
    unfold stepX gapX
    norm_num
    ring
  have hy100 : stepY textH 100 = 2 * textH := by
    unfold stepY gapY
    norm_num
    ring
  refine ⟨hx0, hy0, ?_, ?_, ?_, ?_, ?_, ?_⟩
  · intro x0 n
    rw [hx0]
    unfold loopIter
    push_cast
    ring
  · rw [hx100, hx0]
  · rw [hy100, hy0]
  · intro n
    rw [hx0, loopRuns_iff_of_nonneg _ _ _ (le_of_lt hw),
      lt_tileCount_iff _ _ _ hw]
  · rw [hx100, hx0]
    exact tileCount_double _ _ _ hw
  · rw [hy100, hy0]
    exact tileCount_double _ _ _ hh

/-- Witness for C8 at `textW = textH = 10`, surface 100 by 40. -/
theorem tiling_gap_scaling_witness :
    (0 : ℚ) < 10 ∧
    stepX (10 : ℚ) 100 = 2 * stepX (10 : ℚ) 0 ∧
    tileCount (-(10 : ℚ)) (stepX 10 100) ((100 : ℚ) + 10) =
      (tileCount (-(10 : ℚ)) (stepX 10 0) ((100 : ℚ) + 10) + 1) / 2 := by
  have h := tiling_gap_scaling 10 10 100 40 (by norm_num) (by norm_num)
  exact ⟨by norm_num, h.2.2.2.1, h.2.2.2.2.2.2.1⟩

/-- Counterexample to C8 as stated: on a surface of width 1 with
`textW = 1`, the zero-gap x loop paints 3 tiles and the 100 percent gap
loop paints 2 tiles, and 2 is not half of 3 — the tile count is not
halved, only divided with ceiling rounding. -/
theorem tiling_gap_halving_counterexample :
    tileCount (-(1 : ℚ)) (stepX 1 0) ((1 : ℚ) + 1) = 3 ∧
    tileCount (-(1 : ℚ)) (stepX 1 100) ((1 : ℚ) + 1) = 2 ∧
    ¬ (2 * tileCount (-(1 : ℚ)) (stepX 1 100) ((1 : ℚ) + 1) =
        tileCount (-(1 : ℚ)) (stepX 1 0) ((1 : ℚ) + 1)) := by
  have h1 : stepX (1 : ℚ) 0 = 1 := by
    unfold stepX gapX
    norm_num
  have h2 : stepX (1 : ℚ) 100 = 2 := by
    unfold stepX gapX
    norm_num
  have hc1 : tileCount (-(1 : ℚ)) (stepX 1 0) ((1 : ℚ) + 1) = 3 := by
    unfold tileCount
    rw [h1]
    norm_num
    rfl
  have hc2 : tileCount (-(1 : ℚ)) (stepX 1 100) ((1 : ℚ) + 1) = 2 := by
    unfold tileCount
    rw [h2]
    have hceil : ⌈((3 : ℚ)) / 2⌉ = 2 := by
      rw [Int.ceil_eq_iff]
      constructor <;> norm_num
    norm_num [hceil]
    rfl
  refine ⟨hc1, hc2, ?_⟩
  rw [hc1, hc2]
  omega

/-- C2.  A batch of three images where the second has undecodable bytes:
`processImage` attaches no handler to the image element's error event, so
that invocation's promise never settles, and `handleProcessAll`'s
`Promise.all` (src/App.tsx lines 40-54) therefore never settles either —
the caller receives no per-image outcomes at all, not two successes plus a
typed decode failure.  The second conjunct shows the same batch without
the corrupt image resolves with both results, so the stall is caused by
the one corrupt image. -/
theorem batch_with_corrupt_image_stalls :
    handleProcessAllOutcome
      [{ name := "a.jpg", readerOk := true, decodable := true,
         width := 800, height := 600 },
       { name := "corrupt.jpg", readerOk := true, decodable := false,
         width := 0, height := 0 },
       { name := "c.jpg", readerOk := true, decodable := true,
         width := 2000, height := 1000 }]
      { maxWidth := 1000, quality := 85 / 100, format := Format.jpeg }
      (fun f => f.name ++ "-id") (fun _ => 4000)
      = PromiseOutcome.pending ∧
    handleProcessAllOutcome
      [{ name := "a.jpg", readerOk := true, decodable := true,
         width := 800, height := 600 },
       { name := "c.jpg", readerOk := true, decodable := true,
         width := 2000, height := 1000 }]
      { maxWidth := 1000, quality := 85 / 100, format := Format.jpeg }
      (fun f => f.name ++ "-id") (fun _ => 4000)
      = PromiseOutcome.resolved
          [processResult 800 600
            { maxWidth := 1000, quality := 85 / 100, format := Format.jpeg }
            "a.jpg-id" "a.jpg" 4000,
           processResult 2000 1000
            { maxWidth := 1000, quality := 85 / 100, format := Format.jpeg }
            "c.jpg-id" "c.jpg" 4000] := by
  constructor
  · rfl
  · rfl

/-- C10.  `drawWatermarkAt` (imageProcessor.ts lines 49-62) brackets every
per-anchor mutation — translate, rotate, contrast filter — between
`ctx.save()` and `ctx.restore()`: after each call the context's drawing
state and save stack are exactly what they were before it, the only trace
is the single recorded `fillText`, and painting any list of anchors leaves
the state unchanged while each instance's paint op is derived from the
shared base state and its own anchor alone — no mutation leaks into a
later tile. -/
theorem watermark_draw_state_scoped (wm : WatermarkSettings) (textW : ℚ) :
    (∀ x y : ℚ, ∀ c : Ctx,
      (drawWatermarkAt wm textW x y c).state = c.state ∧
      (drawWatermarkAt wm textW x y c).stack = c.stack ∧
      (drawWatermarkAt wm textW x y c).ops =
        c.ops ++ [instanceOp wm textW x y c.state]) ∧
    (∀ anchors : List (ℚ × ℚ), ∀ c : Ctx,
      (paintAnchors wm textW anchors c).state = c.state ∧
      (paintAnchors wm textW anchors c).stack = c.stack ∧
      (paintAnchors wm textW anchors c).ops =
        c.ops ++ anchors.map fun p => instanceOp wm textW p.1 p.2 c.state) := by
  have single : ∀ x y : ℚ, ∀ c : Ctx,
      (drawWatermarkAt wm textW x y c).state = c.state ∧
      (drawWatermarkAt wm textW x y c).stack = c.stack ∧
      (drawWatermarkAt wm textW x y c).ops =
        c.ops ++ [instanceOp wm textW x y c.state] := by
    intro x y c
    by_cases hc : wm.contrast ≠ 0 <;>
      simp [drawWatermarkAt, ctxSave, ctxTranslate, ctxRotate, ctxSetFilter,
        ctxFillText, ctxRestore, instanceOp, instanceState, hc]
  refine ⟨single, ?_⟩
  intro anchors
  induction anchors with
  | nil =>
    intro c
    simp [paintAnchors]
  | cons a as ih =>
    intro c
    have h1 := single a.1 a.2 c
    have h2 := ih (drawWatermarkAt wm textW a.1 a.2 c)
    simp only [paintAnchors, List.foldl_cons] at h2 ⊢
    refine ⟨?_, ?_, ?_⟩
    · rw [h2.1, h1.1]
    · rw [h2.2.1, h1.2.1]
    · rw [h2.2.2, h1.2.2, h1.1, List.map_cons, List.append_assoc,
        List.singleton_append]

end ResizeWatermarker
